import Mathlib

/-!
Shallow embedding of the fantasy-predictor draft engine.

Sources embedded here:
* `src/utils/scoring.ts` — positions, scoring rulesets, `computeFantasyPoints`;
* `src/utils/csv.ts` — `toNumber` (modelled on already-parsed optional numeric
  fields: `none` stands for a missing or unparsable CSV field);
* `src/app/draft/constants.ts` — draft configuration constants;
* `src/app/draft/utils.ts` — snake scheduler, roster scoring helpers;
* `src/app/draft/components/DraftSetup.tsx` (the `useDraft` hook) — player
  valuation (VOR/tier), the combined-pool sort, the CPU pick heuristic and the
  draft state machine (`makePick`, `handleUserPick`, `startDraft`, `resetDraft`);
* the legacy inline draft page — its combined-pool sort, which weights VOR by
  position scarcity, unlike the hook version.

Numbers are embedded as exact rationals (`ℚ`).  JavaScript's stable
`Array.prototype.sort` with a numeric comparator is embedded as
`List.insertionSort` with the corresponding non-strict relation, which is
stable in the same way.  `Math.random()` is embedded as an explicit stream
`rand : ℕ → ℚ` of per-candidate values.
-/

/-- Player position, from src/utils/scoring.ts. -/
inductive Position where
  | QB | RB | WR | TE
deriving DecidableEq

/-- Scoring ruleset, from src/utils/scoring.ts. -/
inductive Scoring where
  | STANDARD | HALF_PPR | PPR
deriving DecidableEq

/-- The stat fields of a CSV row that computeFantasyPoints reads
(src/utils/scoring.ts).  A field is `none` when the CSV column is missing or
its text does not parse as a number; `toNumber` then falls back to 0. -/
structure CSVRow where
  PassingYDS_pred : Option ℚ
  PassingTD_pred : Option ℚ
  PassingInt_pred : Option ℚ
  RushingYDS_pred : Option ℚ
  RushingTD_pred : Option ℚ
  ReceivingRec_pred : Option ℚ
  ReceivingYDS_pred : Option ℚ
  ReceivingTD_pred : Option ℚ
deriving DecidableEq

/-- toNumber from src/utils/csv.ts, with the default fallback 0: a parsed
numeric value is returned as-is, a missing/unparsable field becomes 0. -/
def toNumber (value : Option ℚ) : ℚ := value.getD 0

/-- JavaScript Math.round on a rational: round half toward positive infinity. -/
def jsRound (x : ℚ) : ℤ := ⌊x + 1/2⌋

/-- computeFantasyPoints from src/utils/scoring.ts.  The position argument is
accepted but unused, exactly as in the source. -/
def computeFantasyPoints (row : CSVRow) (position : Position) (scoring : Scoring) : ℚ :=
  let passYds := toNumber row.PassingYDS_pred
  let passTD := toNumber row.PassingTD_pred
  let passInt := toNumber row.PassingInt_pred
  let rushYds := toNumber row.RushingYDS_pred
  let rushTD := toNumber row.RushingTD_pred
  let receptions := toNumber row.ReceivingRec_pred
  let recYds := toNumber row.ReceivingYDS_pred
  let recTD := toNumber row.ReceivingTD_pred
  let scoringPassYd : ℚ := 1 / 25
  let scoringPassTD : ℚ := 4
  let scoringINT : ℚ := -2
  let scoringRushRecYd : ℚ := 1 / 10
  let scoringRushRecTD : ℚ := 6
  let pprFactor : ℚ := if scoring = Scoring.PPR then 1 else if scoring = Scoring.HALF_PPR then 0.5 else 0
  let points : ℚ :=
    (passYds * scoringPassYd + passTD * scoringPassTD + passInt * scoringINT)
      + (rushYds * scoringRushRecYd + rushTD * scoringRushRecTD)
      + (recYds * scoringRushRecYd + recTD * scoringRushRecTD + receptions * pprFactor)
  (jsRound (points * 100) : ℚ) / 100

/-- DraftPlayer from src/app/draft/types.ts.  The opaque display-only `raw`
attribute bag is omitted: no engine logic reads it. -/
structure DraftPlayer where
  id : String
  name : String
  position : Position
  points : ℚ
  vor : ℚ
  tier : ℕ
deriving DecidableEq

/-- DraftPick from src/app/draft/types.ts. -/
structure DraftPick where
  round : ℕ
  pick : ℕ
  overall : ℕ
  teamIndex : ℕ
  player : DraftPlayer
deriving DecidableEq

/-- DraftPhase from src/app/draft/types.ts. -/
inductive DraftPhase where
  | setup | drafting | complete
deriving DecidableEq

/-- TeamRoster from src/app/draft/types.ts: one bucket per position. -/
structure TeamRoster where
  QB : List DraftPlayer
  RB : List DraftPlayer
  WR : List DraftPlayer
  TE : List DraftPlayer
deriving DecidableEq

/-- The bucket of a roster at a given position (the `roster[pos]` accesses). -/
def TeamRoster.bucket (r : TeamRoster) : Position → List DraftPlayer
  | Position.QB => r.QB
  | Position.RB => r.RB
  | Position.WR => r.WR
  | Position.TE => r.TE

/-- createEmptyRoster from src/app/draft/utils.ts. -/
def createEmptyRoster : TeamRoster := ⟨[], [], [], []⟩

/-- countRosterPositions from src/app/draft/utils.ts, as a function of the
position. -/
def countRosterPositions (roster : TeamRoster) (pos : Position) : ℕ :=
  (roster.bucket pos).length

/-- NUM_TEAMS from src/app/draft/constants.ts. -/
def NUM_TEAMS : ℕ := 12

/-- ROUNDS from src/app/draft/constants.ts. -/
def ROUNDS : ℕ := 15

/-- ROSTER_SIZE from src/app/draft/constants.ts. -/
def ROSTER_SIZE : ℕ := 15

/-- A per-position roster requirement from src/app/draft/constants.ts. -/
structure RosterTarget where
  min : ℕ
  max : ℕ
deriving DecidableEq

/-- ROSTER_TARGETS from src/app/draft/constants.ts. -/
def ROSTER_TARGETS : Position → RosterTarget
  | Position.QB => ⟨1, 2⟩
  | Position.RB => ⟨4, 6⟩
  | Position.WR => ⟨4, 6⟩
  | Position.TE => ⟨1, 2⟩

/-- POSITION_VALUE from src/app/draft/constants.ts. -/
def POSITION_VALUE : Position → ℚ
  | Position.RB => 1.15
  | Position.WR => 1.1
  | Position.TE => 1.0
  | Position.QB => 0.95

/-- REPLACEMENT_RANK from src/app/draft/constants.ts. -/
def REPLACEMENT_RANK : Position → ℕ
  | Position.QB => 12
  | Position.RB => 24
  | Position.WR => 24
  | Position.TE => 12

/-- Comparator relation of the JS sort `(a, b) => b.points - a.points`:
points descending. -/
def byPointsDesc (a b : DraftPlayer) : Prop := b.points ≤ a.points

instance : DecidableRel byPointsDesc :=
  fun a b => inferInstanceAs (Decidable (b.points ≤ a.points))

/-- The stable JS sort by points descending used on position pools and on the
flex candidates. -/
def sortByPointsDesc (l : List DraftPlayer) : List DraftPlayer :=
  List.insertionSort byPointsDesc l

/-- getTeamTotalPoints from src/app/draft/utils.ts. -/
def getTeamTotalPoints (roster : TeamRoster) : ℚ :=
  (roster.QB ++ roster.RB ++ roster.WR ++ roster.TE).foldl (fun sum p => sum + p.points) 0

/-- getStarterPoints from src/app/draft/utils.ts: first 1 QB, first 2 RB,
first 2 WR, first 1 TE, plus one flex slot taken from the remaining RB/WR/TE
sorted by points descending. -/
def getStarterPoints (roster : TeamRoster) : ℚ :=
  let qb := roster.QB.take 1
  let rb := roster.RB.take 2
  let wr := roster.WR.take 2
  let te := roster.TE.take 1
  let flexCandidates := sortByPointsDesc (roster.RB.drop 2 ++ roster.WR.drop 2 ++ roster.TE.drop 1)
  let flex := flexCandidates.take 1
  (qb ++ rb ++ wr ++ te ++ flex).foldl (fun sum p => sum + p.points) 0

/-- getSnakeDraftTeamIndex from src/app/draft/utils.ts. -/
def getSnakeDraftTeamIndex (pickNumber numTeams : ℕ) : ℕ :=
  let round := pickNumber / numTeams
  let pickInRound := pickNumber % numTeams
  if round % 2 = 0 then pickInRound else numTeams - 1 - pickInRound

/-- The VOR/tier pass of useDraft's loadPlayers (DraftSetup.tsx lines 274-284):
replacement value is the points of the player at the replacement rank (0 when
the pool is shorter), every player gets vor = points minus replacement value
and tier = sort-index / 4 + 1. -/
def applyVOR (pos : Position) (players : List DraftPlayer) : List DraftPlayer :=
  let replacementValue := ((players[REPLACEMENT_RANK pos - 1]?).map (fun p => p.points)).getD 0
  players.enum.map (fun ip =>
    { ip.2 with vor := ip.2.points - replacementValue, tier := ip.1 / 4 + 1 })

/-- Comparator relation of the combined-pool sort in the useDraft hook
(DraftSetup.tsx line 288): raw VOR descending. -/
def byVorDesc (a b : DraftPlayer) : Prop := b.vor ≤ a.vor

instance : DecidableRel byVorDesc :=
  fun a b => inferInstanceAs (Decidable (b.vor ≤ a.vor))

/-- The combined-pool sort performed by the useDraft hook: by raw VOR. -/
def sortAllByVor (l : List DraftPlayer) : List DraftPlayer :=
  List.insertionSort byVorDesc l

/-- Comparator relation of the combined-pool sort in the legacy inline draft
page: position-weighted VOR descending. -/
def byWeightedVorDesc (a b : DraftPlayer) : Prop :=
  b.vor * POSITION_VALUE b.position ≤ a.vor * POSITION_VALUE a.position

instance : DecidableRel byWeightedVorDesc :=
  fun a b =>
    inferInstanceAs (Decidable (b.vor * POSITION_VALUE b.position ≤ a.vor * POSITION_VALUE a.position))

/-- The combined-pool sort performed by the legacy inline draft page:
by VOR times position-scarcity weight. -/
def sortAllByWeightedVor (l : List DraftPlayer) : List DraftPlayer :=
  List.insertionSort byWeightedVorDesc l

/-- The draft engine state owned by the useDraft hook: the pick ledger, the
available pool, the twelve team rosters and the phase. -/
structure DraftState where
  draftPicks : List DraftPick
  availablePlayers : List DraftPlayer
  teamRosters : List TeamRoster
  draftPhase : DraftPhase
deriving DecidableEq

/-- Appending a player to the bucket of its position, the
`[player.position]: [...bucket, player]` update inside makePick. -/
def rosterAdd (roster : TeamRoster) (player : DraftPlayer) : TeamRoster :=
  match player.position with
  | Position.QB => { roster with QB := roster.QB ++ [player] }
  | Position.RB => { roster with RB := roster.RB ++ [player] }
  | Position.WR => { roster with WR := roster.WR ++ [player] }
  | Position.TE => { roster with TE := roster.TE ++ [player] }

/-- makePick from the useDraft hook (DraftSetup.tsx lines 379-411): appends a
DraftPick to the ledger, removes the player from the available pool by id,
appends the player to the acting team's bucket, and switches the phase to
complete when the new ledger length reaches ROUNDS times NUM_TEAMS. -/
def makePick (player : DraftPlayer) (s : DraftState) : DraftState :=
  let pickNumber := s.draftPicks.length
  let round := pickNumber / NUM_TEAMS + 1
  let pickInRound := pickNumber % NUM_TEAMS + 1
  let teamIndex := getSnakeDraftTeamIndex pickNumber NUM_TEAMS
  let pick : DraftPick := ⟨round, pickInRound, pickNumber + 1, teamIndex, player⟩
  { draftPicks := s.draftPicks ++ [pick]
    availablePlayers := s.availablePlayers.filter (fun p => p.id ≠ player.id)
    teamRosters :=
      s.teamRosters.set teamIndex (rosterAdd (s.teamRosters.getD teamIndex createEmptyRoster) player)
    draftPhase := if ROUNDS * NUM_TEAMS ≤ pickNumber + 1 then DraftPhase.complete else s.draftPhase }

/-- Derived value currentTeamIndex of the useDraft hook. -/
def currentTeamIndex (s : DraftState) : ℕ :=
  getSnakeDraftTeamIndex s.draftPicks.length NUM_TEAMS

/-- handleUserPick from the useDraft hook (DraftSetup.tsx lines 414-420): a
no-op unless it is the user's turn and the phase is drafting. -/
def handleUserPick (userTeamIndex : ℕ) (player : DraftPlayer) (s : DraftState) : DraftState :=
  if ¬(currentTeamIndex s = userTeamIndex) ∨ s.draftPhase ≠ DraftPhase.drafting then s
  else makePick player s

/-- startDraft from the useDraft hook (DraftSetup.tsx lines 449-455): empty
ledger, pool restored to the full valuated list, twelve empty rosters,
phase drafting. -/
def startDraft (allPlayers : List DraftPlayer) : DraftState :=
  { draftPicks := []
    availablePlayers := allPlayers
    teamRosters := List.replicate NUM_TEAMS createEmptyRoster
    draftPhase := DraftPhase.drafting }

/-- resetDraft from the useDraft hook (DraftSetup.tsx lines 458-464). -/
def resetDraft (allPlayers : List DraftPlayer) : DraftState :=
  { draftPicks := []
    availablePlayers := allPlayers
    teamRosters := List.replicate NUM_TEAMS createEmptyRoster
    draftPhase := DraftPhase.setup }

/-- The per-candidate score of getCPUPick (DraftSetup.tsx lines 348-370).
`r` is the Math.random() draw for this candidate. -/
def cpuScore (counts : Position → ℕ) (neededPositions : List Position) (round : ℕ)
    (p : DraftPlayer) (r : ℚ) : ℚ :=
  let score0 := p.vor * POSITION_VALUE p.position
  let score1 := if p.position ∈ neededPositions then score0 * 1.3 else score0
  let score2 := if p.tier ≤ 2 then score1 * 1.1 else score1
  let score3 :=
    if 8 ≤ round ∧ (p.position = Position.QB ∨ p.position = Position.TE) ∧ counts p.position = 0
    then score2 * 1.25 else score2
  score3 * (0.95 + r * 0.1)

/-- Comparator relation of the JS sort `(a, b) => b.score - a.score` on
scored candidates: score descending. -/
def byScoreDesc (a b : DraftPlayer × ℚ) : Prop := b.2 ≤ a.2

instance : DecidableRel byScoreDesc :=
  fun a b => inferInstanceAs (Decidable (b.2 ≤ a.2))

/-- The candidate-filtering stage of getCPUPick (DraftSetup.tsx lines
330-345): keep players at positions below their maximum, fall back to the
whole pool when that leaves nothing, then narrow to the needed positions when
the team is running out of picks, provided the narrowing is nonempty. -/
def cpuCandidates (available : List DraftPlayer) (counts : Position → ℕ)
    (neededPositions : List Position) (picksRemaining : ℤ) : List DraftPlayer :=
  let candidates0 := available.filter (fun p => counts p.position < (ROSTER_TARGETS p.position).max)
  let candidates1 := if candidates0.isEmpty then available else candidates0
  if ¬neededPositions.isEmpty ∧ picksRemaining ≤ (neededPositions.length : ℤ) + 2 then
    let urgentCandidates := candidates1.filter (fun p => p.position ∈ neededPositions)
    if ¬urgentCandidates.isEmpty then urgentCandidates else candidates1
  else candidates1

/-- The result-selection stage of getCPUPick (DraftSetup.tsx lines 372-373):
stable-sort the scored candidates by score descending and take the first,
falling back to the first available player. -/
def pickTop (available : List DraftPlayer) (scored : List (DraftPlayer × ℚ)) :
    Option DraftPlayer :=
  match List.insertionSort byScoreDesc scored with
  | [] => available.head?
  | top :: _ => some top.1

/-- getCPUPick from the useDraft hook (DraftSetup.tsx lines 304-376).
The Math.random() draws are supplied as the stream `rand`, indexed by the
candidate's position in the candidate list. -/
def getCPUPick (available : List DraftPlayer) (teamRoster : TeamRoster) (round : ℕ)
    (rand : ℕ → ℚ) : Option DraftPlayer :=
  if available.isEmpty then none
  else
    let counts := countRosterPositions teamRoster
    let totalPicks := counts Position.QB + counts Position.RB + counts Position.WR + counts Position.TE
    let picksRemaining : ℤ := (ROSTER_SIZE : ℤ) - totalPicks
    let neededPositions :=
      [Position.QB, Position.RB, Position.WR, Position.TE].filter
        (fun pos => counts pos < (ROSTER_TARGETS pos).min)
    let candidates := cpuCandidates available counts neededPositions picksRemaining
    let scored := candidates.enum.map
      (fun ip => (ip.2, cpuScore counts neededPositions round ip.2 (rand ip.1)))
    pickTop available scored

/-- Folding a sequence of picks through makePick, in order. -/
def applyPicks (ps : List DraftPlayer) (s : DraftState) : DraftState :=
  ps.foldl (fun st p => makePick p st) s

/-- A pick sequence in which every picked player is drawn from the then-current
available pool. -/
inductive ValidPickSeq : DraftState → List DraftPlayer → Prop where
  | nil (s : DraftState) : ValidPickSeq s []
  | cons (s : DraftState) (p : DraftPlayer) (ps : List DraftPlayer) :
      p ∈ s.availablePlayers → ValidPickSeq (makePick p s) ps → ValidPickSeq s (p :: ps)

/-- The starting-lineup rule as the spec states it (section 4.4): best 1 QB,
best 2 RB, best 2 WR, best 1 TE by points, plus one flex slot filled by the
highest-points player among the remaining RB, WR and TE, pooled and top-1
selected.  Best-N is here computed by sorting each bucket, independently of
the order players were inserted in. -/
def starterPointsSpec (roster : TeamRoster) : ℚ :=
  let qbBest := (sortByPointsDesc roster.QB).take 1
  let rbBest := (sortByPointsDesc roster.RB).take 2
  let wrBest := (sortByPointsDesc roster.WR).take 2
  let teBest := (sortByPointsDesc roster.TE).take 1
  let flexPool := sortByPointsDesc
    ((sortByPointsDesc roster.RB).drop 2 ++ (sortByPointsDesc roster.WR).drop 2
      ++ (sortByPointsDesc roster.TE).drop 1)
  let flexBest := flexPool.take 1
  (qbBest ++ rbBest ++ wrBest ++ teBest ++ flexBest).foldl (fun sum p => sum + p.points) 0

section SnakeScheduler

/-- C9: the Turn Scheduler is the pure snake formula of the 0-based global pick
index and team count: with round = pick div N and positionInRound = pick mod N,
the acting team is positionInRound on even rounds and N - 1 - positionInRound
on odd rounds; for positive N the result is a valid team index. -/
theorem getSnakeDraftTeamIndex_formula (pickNumber numTeams : ℕ) :
    getSnakeDraftTeamIndex pickNumber numTeams =
      (if (pickNumber / numTeams) % 2 = 0 then pickNumber % numTeams
        else numTeams - 1 - pickNumber % numTeams)
    ∧ (0 < numTeams → getSnakeDraftTeamIndex pickNumber numTeams < numTeams) := by
  constructor
  · rfl
  · intro hN
    have hmod := Nat.mod_lt pickNumber hN
    unfold getSnakeDraftTeamIndex
    dsimp only
    split
    · exact hmod
    · omega

/-- Witness for the scheduler formula at pick 17 with 12 teams. -/
theorem getSnakeDraftTeamIndex_formula_witness :
    getSnakeDraftTeamIndex 17 12 =
      (if (17 / 12) % 2 = 0 then 17 % 12 else 12 - 1 - 17 % 12)
    ∧ getSnakeDraftTeamIndex 17 12 < 12 :=
  ⟨(getSnakeDraftTeamIndex_formula 17 12).1,
    (getSnakeDraftTeamIndex_formula 17 12).2 (by decide)⟩

/-- C4 counterexample: the scheduler does not return team 0 at the start of
every round — at pick index 1 * NUM_TEAMS (start of the second, odd round)
with 12 teams it returns team 11, not 0. -/
theorem snake_roundStart_ne_zero :
    ¬ getSnakeDraftTeamIndex (1 * NUM_TEAMS) NUM_TEAMS = 0 := by
  decide

/-- C4 amended: for 0 < N, the first pick of round r goes to team 0 when r is
even and to team N - 1 when r is odd, and the last pick of round r goes to
team N - 1 when r is even and to team 0 when r is odd (the snake property:
round starts and round ends alternate between the first and last team). -/
theorem snake_roundStart_roundEnd (r N : ℕ) (hN : 0 < N) :
    getSnakeDraftTeamIndex (r * N) N = (if r % 2 = 0 then 0 else N - 1)
    ∧ getSnakeDraftTeamIndex (r * N + N - 1) N = (if r % 2 = 0 then N - 1 else 0) := by
  have h1 : r * N / N = r := Nat.mul_div_cancel r hN
  have h2 : r * N % N = 0 := Nat.mul_mod_left r N
  have hc : r * N = N * r := Nat.mul_comm r N
  have h3 : r * N + N - 1 = N * r + (N - 1) := by omega
  have h4 : (N * r + (N - 1)) / N = r + (N - 1) / N := Nat.mul_add_div hN r (N - 1)
  have h5 : (N - 1) / N = 0 := Nat.div_eq_of_lt (by omega)
  have h6 : (N * r + (N - 1)) % N = (N - 1) % N := Nat.mul_add_mod N r (N - 1)
  have h7 : (N - 1) % N = N - 1 := Nat.mod_eq_of_lt (by omega)
  unfold getSnakeDraftTeamIndex
  dsimp only
  rw [h1, h2, h3, h4, h5, h6, h7]
  constructor
  · split_ifs <;> omega
  · have h8 : r + 0 = r := Nat.add_zero r
    rw [h8]
    split_ifs <;> omega

/-- Witness for the amended snake property at round 1 with 12 teams. -/
theorem snake_roundStart_roundEnd_witness :
    getSnakeDraftTeamIndex (1 * 12) 12 = (if 1 % 2 = 0 then 0 else 12 - 1)
    ∧ getSnakeDraftTeamIndex (1 * 12 + 12 - 1) 12 = (if 1 % 2 = 0 then 12 - 1 else 0) :=
  snake_roundStart_roundEnd 1 12 (by decide)

end SnakeScheduler

section ScoringFunction

/-- C8: computeFantasyPoints is exactly the claimed rule — passing yards times
0.04, passing TD times 4, interceptions times -2, rushing and receiving yards
times 0.1, rushing and receiving TD times 6, receptions times 0 / 0.5 / 1 for
STANDARD / HALF_PPR / PPR, missing fields contributing 0, rounded to two
decimal places — and the STANDARD scenario row with 300 passing yards, 2
passing TD, 1 interception and 10 rushing yards scores exactly 19. -/
theorem computeFantasyPoints_formula :
    (∀ (row : CSVRow) (position : Position) (scoring : Scoring),
      computeFantasyPoints row position scoring =
        (jsRound ((toNumber row.PassingYDS_pred * 0.04 + toNumber row.PassingTD_pred * 4
          + toNumber row.PassingInt_pred * (-2) + toNumber row.RushingYDS_pred * 0.1
          + toNumber row.RushingTD_pred * 6 + toNumber row.ReceivingYDS_pred * 0.1
          + toNumber row.ReceivingTD_pred * 6
          + toNumber row.ReceivingRec_pred *
              (if scoring = Scoring.PPR then 1
                else if scoring = Scoring.HALF_PPR then 0.5 else 0)) * 100) : ℚ) / 100)
    ∧ computeFantasyPoints ⟨some 300, some 2, some 1, some 10, none, none, none, none⟩
        Position.QB Scoring.STANDARD = 19 := by
  constructor
  · intro row position scoring
    simp only [computeFantasyPoints]
    congr 2
    ring_nf
  · simp only [computeFantasyPoints, toNumber, Option.getD]
    norm_num [jsRound, Int.floor_eq_iff]

end ScoringFunction

section StarterPoints

/-- C2: when every position bucket is sorted by points descending (the
insertion-time invariant the spec relies on), getStarterPoints computes
exactly the spec's rule: best 1 QB, best 2 RB, best 2 WR and best 1 TE by
points plus one flex slot filled by the highest-points remaining RB/WR/TE. -/
theorem getStarterPoints_eq_spec (roster : TeamRoster)
    (hQB : List.Sorted byPointsDesc roster.QB) (hRB : List.Sorted byPointsDesc roster.RB)
    (hWR : List.Sorted byPointsDesc roster.WR) (hTE : List.Sorted byPointsDesc roster.TE) :
    getStarterPoints roster = starterPointsSpec roster := by
  unfold getStarterPoints starterPointsSpec sortByPointsDesc
  rw [hQB.insertionSort_eq, hRB.insertionSort_eq, hWR.insertionSort_eq, hTE.insertionSort_eq]

/-- Concrete roster of the C2 scenario: only RB filled, points 20, 15, 10, 5. -/
def rbA : DraftPlayer := ⟨"RB-A", "A", Position.RB, 20, 0, 1⟩

/-- Second RB of the C2 scenario. -/
def rbB : DraftPlayer := ⟨"RB-B", "B", Position.RB, 15, 0, 1⟩

/-- Third RB of the C2 scenario. -/
def rbC : DraftPlayer := ⟨"RB-C", "C", Position.RB, 10, 0, 1⟩

/-- Fourth RB of the C2 scenario. -/
def rbD : DraftPlayer := ⟨"RB-D", "D", Position.RB, 5, 0, 1⟩

/-- The C2 scenario roster. -/
def rosterRBOnly : TeamRoster := ⟨[], [rbA, rbB, rbC, rbD], [], []⟩

/-- Witness for C2: the scenario roster satisfies the sortedness hypotheses,
agrees with the spec rule, and scores 20 + 15 + 10 = 45. -/
theorem getStarterPoints_eq_spec_witness :
    getStarterPoints rosterRBOnly = starterPointsSpec rosterRBOnly
    ∧ getStarterPoints rosterRBOnly = 45 := by
  constructor
  · exact getStarterPoints_eq_spec rosterRBOnly (by decide) (by decide) (by decide) (by decide)
  · norm_num [getStarterPoints, sortByPointsDesc, rosterRBOnly, rbA, rbB, rbC, rbD,
      List.insertionSort, List.orderedInsert, byPointsDesc]

end StarterPoints

section Valuation

/-- C7: the VOR pass gives every player vor = own points minus the points of
the player at the replacement rank (0 when the pool is shorter than the rank),
and when the pool has at least REPLACEMENT_RANK pos players the player at
sort-index rank - 1 gets vor exactly 0. -/
theorem applyVOR_vor (pos : Position) (players : List DraftPlayer)
    (hsorted : List.Sorted byPointsDesc players) :
    (∀ i : ℕ, ((applyVOR pos players)[i]?).map (fun p => p.vor) =
      (players[i]?).map (fun p =>
        p.points - (((players[REPLACEMENT_RANK pos - 1]?).map (fun q => q.points)).getD 0)))
    ∧ (REPLACEMENT_RANK pos ≤ players.length →
        ((applyVOR pos players)[REPLACEMENT_RANK pos - 1]?).map (fun p => p.vor) = some 0) := by
  have hmain : ∀ i : ℕ, ((applyVOR pos players)[i]?).map (fun p => p.vor) =
      (players[i]?).map (fun p =>
        p.points - (((players[REPLACEMENT_RANK pos - 1]?).map (fun q => q.points)).getD 0)) := by
    intro i
    unfold applyVOR
    rw [List.getElem?_map, List.getElem?_enum]
    cases players[i]? <;> simp
  refine ⟨hmain, ?_⟩
  intro hlen
  have hk : 1 ≤ REPLACEMENT_RANK pos := by cases pos <;> decide
  have hlt : REPLACEMENT_RANK pos - 1 < players.length := by omega
  rw [hmain (REPLACEMENT_RANK pos - 1)]
  rw [List.getElem?_eq_getElem hlt]
  simp

end Valuation

section ValuationWitness

/-- A 12-player QB pool sorted by points descending, for the C7 witness. -/
def qbPool : List DraftPlayer :=
  [⟨"QB-01", "q01", Position.QB, 120, 0, 0⟩, ⟨"QB-02", "q02", Position.QB, 110, 0, 0⟩,
   ⟨"QB-03", "q03", Position.QB, 100, 0, 0⟩, ⟨"QB-04", "q04", Position.QB, 90, 0, 0⟩,
   ⟨"QB-05", "q05", Position.QB, 80, 0, 0⟩, ⟨"QB-06", "q06", Position.QB, 70, 0, 0⟩,
   ⟨"QB-07", "q07", Position.QB, 60, 0, 0⟩, ⟨"QB-08", "q08", Position.QB, 50, 0, 0⟩,
   ⟨"QB-09", "q09", Position.QB, 40, 0, 0⟩, ⟨"QB-10", "q10", Position.QB, 30, 0, 0⟩,
   ⟨"QB-11", "q11", Position.QB, 20, 0, 0⟩, ⟨"QB-12", "q12", Position.QB, 10, 0, 0⟩]

/-- Witness for C7 on the 12-player QB pool: the vor of the top player is its
points minus the replacement points, and the player at the replacement rank
(sort-index 11) has vor exactly 0. -/
theorem applyVOR_vor_witness :
    (((applyVOR Position.QB qbPool)[0]?).map (fun p => p.vor) =
      ((qbPool[0]?).map (fun p =>
        p.points - (((qbPool[REPLACEMENT_RANK Position.QB - 1]?).map (fun q => q.points)).getD 0))))
    ∧ ((applyVOR Position.QB qbPool)[REPLACEMENT_RANK Position.QB - 1]?).map (fun p => p.vor)
        = some 0 :=
  ⟨(applyVOR_vor Position.QB qbPool (by decide)).1 0,
    (applyVOR_vor Position.QB qbPool (by decide)).2 (by decide)⟩

end ValuationWitness

section CombinedPoolSort

/-- A QB whose raw VOR is 10, so its position-weighted VOR is 10 * 0.95 = 9.5. -/
def qbHighVor : DraftPlayer := ⟨"QB-X", "X", Position.QB, 0, 10, 1⟩

/-- An RB whose raw VOR is 9, so its position-weighted VOR is 9 * 1.15 = 10.35. -/
def rbNearVor : DraftPlayer := ⟨"RB-Y", "Y", Position.RB, 0, 9, 1⟩

instance : IsTotal DraftPlayer byWeightedVorDesc :=
  ⟨fun a b => le_total (b.vor * POSITION_VALUE b.position) (a.vor * POSITION_VALUE a.position)⟩

instance : IsTrans DraftPlayer byWeightedVorDesc :=
  ⟨fun _ _ _ hab hbc => le_trans hbc hab⟩

/-- C3 failing input: the useDraft hook sorts the combined pool by raw VOR
(DraftSetup.tsx line 288), so the QB with vor 10 is placed ahead of the RB with
vor 9 even though its position-weighted VOR (9.5) is smaller than the RB's
(10.35); the resulting pool is not sorted descending by position-weighted VOR,
although the comment above the sort says "adjusted VOR" and the legacy inline
page weights by POSITION_VALUE. -/
theorem sortAllByVor_not_weightedSorted :
    sortAllByVor [qbHighVor, rbNearVor] = [qbHighVor, rbNearVor]
    ∧ ¬ List.Sorted byWeightedVorDesc (sortAllByVor [qbHighVor, rbNearVor])
    ∧ List.Sorted byWeightedVorDesc (sortAllByWeightedVor [qbHighVor, rbNearVor]) := by
  have hsort : sortAllByVor [qbHighVor, rbNearVor] = [qbHighVor, rbNearVor] := by decide
  refine ⟨hsort, ?_, ?_⟩
  · rw [hsort]
    intro h
    have hrel := List.rel_of_sorted_cons h rbNearVor (by simp)
    rw [byWeightedVorDesc] at hrel
    norm_num [qbHighVor, rbNearVor, POSITION_VALUE] at hrel
  · exact List.sorted_insertionSort byWeightedVorDesc _

end CombinedPoolSort

section PickProtocol

/-- A WR in the pool of the protocol examples. -/
def wrP : DraftPlayer := ⟨"WR-P", "P", Position.WR, 0, 0, 1⟩

/-- A WR outside the pool of the protocol examples. -/
def wrQ : DraftPlayer := ⟨"WR-Q", "Q", Position.WR, 0, 0, 1⟩

/-- A drafting-phase state whose pool holds only wrP, with it being team 0's
turn. -/
def stateDrafting : DraftState :=
  { draftPicks := []
    availablePlayers := [wrP]
    teamRosters := List.replicate NUM_TEAMS createEmptyRoster
    draftPhase := DraftPhase.drafting }

/-- A setup-phase state, otherwise identical to stateDrafting. -/
def stateSetup : DraftState :=
  { draftPicks := []
    availablePlayers := [wrP]
    teamRosters := List.replicate NUM_TEAMS createEmptyRoster
    draftPhase := DraftPhase.setup }

/-- C5 counterexample: a pick for a player that is not in the available pool is
not a no-op — during the user's turn in the drafting phase, handleUserPick for
the absent player wrQ still changes the state (it appends to the ledger and to
the acting roster; only the pool is left unchanged). -/
theorem handleUserPick_notInPool_not_noop :
    wrQ ∉ stateDrafting.availablePlayers
    ∧ stateDrafting.draftPhase = DraftPhase.drafting
    ∧ ¬ (handleUserPick 0 wrQ stateDrafting = stateDrafting) := by
  decide

/-- C5 amended: applying a pick outside the drafting phase through
handleUserPick is a no-op, but a pick for a player not present in the
available pool is not ignored: makePick still appends a ledger entry (and a
roster entry); only the available pool is left unchanged. -/
theorem applyPick_phase_guard_and_pool (s : DraftState) (uidx : ℕ) (p : DraftPlayer) :
    (s.draftPhase ≠ DraftPhase.drafting → handleUserPick uidx p s = s)
    ∧ ((∀ q ∈ s.availablePlayers, q.id ≠ p.id) →
        (makePick p s).availablePlayers = s.availablePlayers
          ∧ (makePick p s).draftPicks.length = s.draftPicks.length + 1) := by
  constructor
  · intro h
    unfold handleUserPick
    rw [if_pos (Or.inr h)]
  · intro h
    refine ⟨?_, ?_⟩
    · simp only [makePick]
      rw [List.filter_eq_self]
      intro a ha
      simpa using h a ha
    · simp [makePick]

/-- Witness for the amended C5 statement: a setup-phase pick is a no-op, and a
pick for the absent player wrQ leaves the pool unchanged. -/
theorem applyPick_phase_guard_and_pool_witness :
    handleUserPick 0 wrQ stateSetup = stateSetup
    ∧ (makePick wrQ stateDrafting).availablePlayers = stateDrafting.availablePlayers :=
  ⟨(applyPick_phase_guard_and_pool stateSetup 0 wrQ).1 (by decide),
    ((applyPick_phase_guard_and_pool stateDrafting 0 wrQ).2 (by decide)).1⟩

end PickProtocol

section PhaseComplete

/-- Helper: ledger length and phase through a chain of makePick calls starting
from a ledger of length k in the phase the completion rule dictates. -/
theorem applyPicks_length_phase (ps : List DraftPlayer) (s : DraftState) (k : ℕ)
    (hlen : s.draftPicks.length = k)
    (hphase : s.draftPhase =
      (if ROUNDS * NUM_TEAMS ≤ k then DraftPhase.complete else DraftPhase.drafting)) :
    (applyPicks ps s).draftPicks.length = k + ps.length
    ∧ (applyPicks ps s).draftPhase =
        (if ROUNDS * NUM_TEAMS ≤ k + ps.length then DraftPhase.complete else DraftPhase.drafting) := by
  induction ps generalizing s k with
  | nil =>
    simp only [applyPicks, List.foldl_nil, List.length_nil, Nat.add_zero]
    exact ⟨hlen, hphase⟩
  | cons p ps ih =>
    have h1 : (makePick p s).draftPicks.length = k + 1 := by simp [makePick, hlen]
    have h2 : (makePick p s).draftPhase =
        (if ROUNDS * NUM_TEAMS ≤ k + 1 then DraftPhase.complete else DraftPhase.drafting) := by
      simp only [makePick, hlen]
      split_ifs with hc
      · rfl
      · rw [hphase, if_neg (by omega)]
    have hfold : applyPicks (p :: ps) s = applyPicks ps (makePick p s) := rfl
    obtain ⟨hl, hp⟩ := ih (makePick p s) (k + 1) h1 h2
    have hlen2 : k + (p :: ps).length = (k + 1) + ps.length := by
      simp only [List.length_cons]
      omega
    rw [hfold, hlen2]
    exact ⟨hl, hp⟩

/-- C6: from startDraft, after any sequence of picks applied through makePick
the phase is complete exactly when the ledger length has reached
ROUNDS * NUM_TEAMS (180 picks for 12 teams and 15 rounds); makePick never
leaves the complete phase, and resetDraft is what returns the state to setup. -/
theorem draftPhase_complete_iff (pool : List DraftPlayer) (ps : List DraftPlayer) :
    ((applyPicks ps (startDraft pool)).draftPhase = DraftPhase.complete
      ↔ ROUNDS * NUM_TEAMS ≤ ps.length)
    ∧ (∀ (s : DraftState) (p : DraftPlayer),
        s.draftPhase = DraftPhase.complete → (makePick p s).draftPhase = DraftPhase.complete)
    ∧ (resetDraft pool).draftPhase = DraftPhase.setup := by
  refine ⟨?_, ?_, rfl⟩
  · have h := applyPicks_length_phase ps (startDraft pool) 0 rfl
      (by rw [if_neg (by decide)]; rfl)
    have h2 := h.2
    rw [Nat.zero_add] at h2
    rw [h2]
    split_ifs with hc <;> simp [hc]
  · intro s p h
    simp only [makePick]
    split_ifs with hc
    · rfl
    · exact h

/-- A complete-phase state for the C6 witness. -/
def stateComplete : DraftState :=
  { draftPicks := []
    availablePlayers := []
    teamRosters := List.replicate NUM_TEAMS createEmptyRoster
    draftPhase := DraftPhase.complete }

/-- Witness for C6: 180 picks from startDraft land in the complete phase, and
one more makePick on a complete-phase state stays complete. -/
theorem draftPhase_complete_iff_witness :
    (applyPicks (List.replicate 180 wrP) (startDraft [])).draftPhase = DraftPhase.complete
    ∧ (makePick wrP stateComplete).draftPhase = DraftPhase.complete :=
  ⟨(draftPhase_complete_iff [] (List.replicate 180 wrP)).1.mpr
      (by rw [List.length_replicate]; decide),
    (draftPhase_complete_iff [] []).2.1 stateComplete wrP rfl⟩

end PhaseComplete

section Conservation

/-- Helper: when the pool's ids are pairwise distinct and the picked player is
in the pool, filtering out its id removes exactly one element. -/
theorem filter_ne_id_length (l : List DraftPlayer) (p : DraftPlayer)
    (hnd : (l.map (fun q => q.id)).Nodup) (hp : p ∈ l) :
    (l.filter (fun q => q.id ≠ p.id)).length + 1 = l.length := by
  induction l with
  | nil => cases hp
  | cons a l ih =>
    rw [List.map_cons, List.nodup_cons] at hnd
    by_cases ha : a.id = p.id
    · have hall : ∀ q ∈ l, q.id ≠ p.id := by
        intro q hq hqe
        exact hnd.1 (by rw [ha, ← hqe]; exact List.mem_map_of_mem _ hq)
      have hfl : l.filter (fun q => q.id ≠ p.id) = l := by
        rw [List.filter_eq_self]
        intro q hq
        simpa using hall q hq
      rw [List.filter_cons, if_neg (by simp [ha]), hfl, List.length_cons]
    · have hpl : p ∈ l := by
        cases hp with
        | head => exact absurd rfl ha
        | tail _ h => exact h
      have := ih hnd.2 hpl
      simp only [List.filter_cons]
      rw [if_pos (by simpa using ha)]
      simp only [List.length_cons]
      omega

/-- Helper: one valid makePick appends one ledger entry, removes exactly one
player from the pool, and preserves distinctness of the pool's ids. -/
theorem makePick_pool (s : DraftState) (p : DraftPlayer)
    (hnd : (s.availablePlayers.map (fun q => q.id)).Nodup) (hp : p ∈ s.availablePlayers) :
    (makePick p s).availablePlayers.length + 1 = s.availablePlayers.length
    ∧ (makePick p s).draftPicks.length = s.draftPicks.length + 1
    ∧ ((makePick p s).availablePlayers.map (fun q => q.id)).Nodup := by
  refine ⟨?_, by simp [makePick], ?_⟩
  · exact filter_ne_id_length s.availablePlayers p hnd hp
  · exact hnd.sublist ((List.filter_sublist s.availablePlayers).map _)

/-- Helper: ledger growth and pool shrinkage along a whole valid pick
sequence. -/
theorem conservation_aux (ps : List DraftPlayer) (s : DraftState)
    (hnd : (s.availablePlayers.map (fun q => q.id)).Nodup)
    (hv : ValidPickSeq s ps) :
    (applyPicks ps s).draftPicks.length = s.draftPicks.length + ps.length
    ∧ (applyPicks ps s).availablePlayers.length + ps.length = s.availablePlayers.length := by
  induction ps generalizing s with
  | nil => simp [applyPicks]
  | cons p ps ih =>
    cases hv with
    | cons _ _ _ hp hrest =>
      obtain ⟨h1, h2, h3⟩ := makePick_pool s p hnd hp
      obtain ⟨hl, ha⟩ := ih (makePick p s) h3 hrest
      have hfold : applyPicks (p :: ps) s = applyPicks ps (makePick p s) := rfl
      rw [hfold]
      constructor
      · rw [hl, h2]
        simp only [List.length_cons]
        omega
      · simp only [List.length_cons]
        omega

/-- C10: conservation — from startDraft, along any pick sequence in which every
pick is drawn from the then-current pool and the full pool has pairwise
distinct ids, ledger length plus pool size always equals the full pool size
and the ledger grows by one per pick; a single valid makePick removes exactly
one player from the pool. -/
theorem draft_conservation :
    (∀ (pool ps : List DraftPlayer), (pool.map (fun q => q.id)).Nodup →
      ValidPickSeq (startDraft pool) ps →
      (applyPicks ps (startDraft pool)).draftPicks.length
          + (applyPicks ps (startDraft pool)).availablePlayers.length = pool.length
        ∧ (applyPicks ps (startDraft pool)).draftPicks.length = ps.length)
    ∧ (∀ (s : DraftState) (p : DraftPlayer),
        (s.availablePlayers.map (fun q => q.id)).Nodup → p ∈ s.availablePlayers →
        (makePick p s).availablePlayers.length + 1 = s.availablePlayers.length) := by
  constructor
  · intro pool ps hnd hv
    obtain ⟨hl, ha⟩ := conservation_aux ps (startDraft pool) hnd hv
    have e1 : (startDraft pool).draftPicks.length = 0 := rfl
    have e2 : (startDraft pool).availablePlayers.length = pool.length := rfl
    rw [e1, Nat.zero_add] at hl
    rw [e2] at ha
    exact ⟨by omega, hl⟩
  · intro s p hnd hp
    exact (makePick_pool s p hnd hp).1

/-- Witness for C10 on a two-player pool: one valid pick leaves ledger plus
pool at size two, and the single-step removal holds on stateDrafting. -/
theorem draft_conservation_witness :
    ((applyPicks [wrP] (startDraft [wrP, wrQ])).draftPicks.length
        + (applyPicks [wrP] (startDraft [wrP, wrQ])).availablePlayers.length = 2)
    ∧ (makePick wrP stateDrafting).availablePlayers.length + 1
        = stateDrafting.availablePlayers.length :=
  ⟨by
    have h := (draft_conservation.1 [wrP, wrQ] [wrP] (by decide)
      (ValidPickSeq.cons _ _ _ (by decide) (ValidPickSeq.nil _))).1
    simpa using h,
   draft_conservation.2 stateDrafting wrP (by decide) (by decide)⟩

end Conservation

section OpponentHeuristic

/-- Helper: the head of an insertion-sorted list is an element of the original
list. -/
theorem insertionSort_head_mem (l : List (DraftPlayer × ℚ)) (a : DraftPlayer × ℚ)
    (rest : List (DraftPlayer × ℚ)) (h : List.insertionSort byScoreDesc l = a :: rest) :
    a ∈ l := by
  have ha : a ∈ List.insertionSort byScoreDesc l := by
    rw [h]
    exact List.mem_cons_self a rest
  rwa [List.mem_insertionSort] at ha

/-- Helper: the first component of any scored entry is one of the candidates. -/
theorem scored_fst_mem (l : List DraftPlayer) (g : ℕ × DraftPlayer → ℚ)
    (x : DraftPlayer × ℚ) (h : x ∈ l.enum.map (fun ip => (ip.2, g ip))) : x.1 ∈ l := by
  obtain ⟨ip, hip, hx⟩ := List.mem_map.mp h
  rw [List.mem_enum_iff_getElem?] at hip
  have h2 : ip.2 ∈ l := List.getElem?_mem hip
  rw [← hx]
  exact h2

/-- Helper: pickTop over a nonempty scored list returns the first component of
one of its entries. -/
theorem pickTop_mem (available : List DraftPlayer) (scored : List (DraftPlayer × ℚ))
    (p : DraftPlayer) (hs : scored ≠ []) (h : pickTop available scored = some p) :
    ∃ x ∈ scored, x.1 = p := by
  unfold pickTop at h
  cases hsort : List.insertionSort byScoreDesc scored with
  | nil =>
    have hperm := List.perm_insertionSort byScoreDesc scored
    rw [hsort] at hperm
    exact absurd hperm.symm.eq_nil hs
  | cons top rest =>
    rw [hsort] at h
    simp only [Option.some.injEq] at h
    refine ⟨top, ?_, h⟩
    have htop : top ∈ List.insertionSort byScoreDesc scored := by
      rw [hsort]
      exact List.mem_cons_self top rest
    rwa [List.mem_insertionSort] at htop

/-- Helper: every member of cpuCandidates is at an under-max position,
provided at least one available player is at an under-max position. -/
theorem cpuCandidates_mem (available : List DraftPlayer) (counts : Position → ℕ)
    (neededPositions : List Position) (picksRemaining : ℤ)
    (h0 : available.filter (fun p => counts p.position < (ROSTER_TARGETS p.position).max) ≠ [])
    (x : DraftPlayer)
    (hx : x ∈ cpuCandidates available counts neededPositions picksRemaining) :
    counts x.position < (ROSTER_TARGETS x.position).max := by
  have hempty :
      (available.filter (fun p => counts p.position < (ROSTER_TARGETS p.position).max)).isEmpty
        = false := by
    cases he : (available.filter
        (fun p => counts p.position < (ROSTER_TARGETS p.position).max)).isEmpty
    · rfl
    · exact absurd (List.isEmpty_iff.mp he) h0
  simp only [cpuCandidates, hempty, Bool.false_eq_true, if_false] at hx
  suffices hmem :
      x ∈ available.filter (fun p => counts p.position < (ROSTER_TARGETS p.position).max) by
    simpa using (List.mem_filter.mp hmem).2
  split at hx
  · split at hx
    · exact List.mem_of_mem_filter hx
    · exact hx
  · exact hx

/-- Helper: cpuCandidates is nonempty whenever the under-max filter is. -/
theorem cpuCandidates_ne_nil (available : List DraftPlayer) (counts : Position → ℕ)
    (neededPositions : List Position) (picksRemaining : ℤ)
    (h0 : available.filter (fun p => counts p.position < (ROSTER_TARGETS p.position).max) ≠ []) :
    cpuCandidates available counts neededPositions picksRemaining ≠ [] := by
  have hempty :
      (available.filter (fun p => counts p.position < (ROSTER_TARGETS p.position).max)).isEmpty
        = false := by
    cases he : (available.filter
        (fun p => counts p.position < (ROSTER_TARGETS p.position).max)).isEmpty
    · rfl
    · exact absurd (List.isEmpty_iff.mp he) h0
  simp only [cpuCandidates, hempty, Bool.false_eq_true, if_false]
  split
  · split
    · intro hnil
      rename_i hurgent
      rw [hnil] at hurgent
      exact hurgent rfl
    · exact h0
  · exact h0

/-- C1 amended: the opponent heuristic never proposes a player at an over-max
position as long as at least one available player's position is below its
configured maximum; only when every available player sits at a maxed-out
position does the fallback hand back an over-max player.  (The engine itself,
makePick / handleUserPick, performs no maximum check.) -/
theorem getCPUPick_no_overMax (available : List DraftPlayer) (teamRoster : TeamRoster)
    (round : ℕ) (rand : ℕ → ℚ) (p : DraftPlayer)
    (hq : ∃ q ∈ available,
      countRosterPositions teamRoster q.position < (ROSTER_TARGETS q.position).max)
    (heq : getCPUPick available teamRoster round rand = some p) :
    countRosterPositions teamRoster p.position < (ROSTER_TARGETS p.position).max := by
  obtain ⟨q, hqmem, hqlt⟩ := hq
  have hne : available ≠ [] := List.ne_nil_of_mem hqmem
  have h0 : available.filter
      (fun r => countRosterPositions teamRoster r.position < (ROSTER_TARGETS r.position).max)
        ≠ [] := by
    intro hnil
    have hqf : q ∈ available.filter
        (fun r => countRosterPositions teamRoster r.position < (ROSTER_TARGETS r.position).max) :=
      List.mem_filter.mpr ⟨hqmem, by simpa using hqlt⟩
    rw [hnil] at hqf
    exact (List.not_mem_nil q) hqf
  simp only [getCPUPick] at heq
  rw [if_neg (by simp [List.isEmpty_iff, hne])] at heq
  have hcne := cpuCandidates_ne_nil available (countRosterPositions teamRoster)
    ([Position.QB, Position.RB, Position.WR, Position.TE].filter
      (fun pos => countRosterPositions teamRoster pos < (ROSTER_TARGETS pos).min))
    ((ROSTER_SIZE : ℤ) - (countRosterPositions teamRoster Position.QB
      + countRosterPositions teamRoster Position.RB
      + countRosterPositions teamRoster Position.WR
      + countRosterPositions teamRoster Position.TE)) h0
  obtain ⟨x, hxmem, hxp⟩ := pickTop_mem _ _ _ (by
    intro hnil
    apply hcne
    have hlen := congrArg List.length hnil
    simpa [List.length_eq_zero] using hlen) heq
  have hxc := scored_fst_mem _ _ _ hxmem
  rw [← hxp]
  exact cpuCandidates_mem _ _ _ _ h0 x.1 hxc

end OpponentHeuristic

section OpponentHeuristicExamples

/-- First QB on the maxed roster of the C1 counterexample. -/
def qbOne : DraftPlayer := ⟨"QB-1", "one", Position.QB, 0, 0, 1⟩

/-- Second QB on the maxed roster of the C1 counterexample. -/
def qbTwo : DraftPlayer := ⟨"QB-2", "two", Position.QB, 0, 0, 1⟩

/-- The only player left in the pool of the C1 counterexample, a third QB. -/
def qbThree : DraftPlayer := ⟨"QB-3", "three", Position.QB, 0, 0, 1⟩

/-- A roster already holding the maximum allowed two QBs. -/
def rosterTwoQB : TeamRoster := ⟨[qbOne, qbTwo], [], [], []⟩

/-- A Math.random() stream pinned to 0 (score factor 0.95). -/
def randZero : ℕ → ℚ := fun _ => 0

/-- A drafting-phase state in which team 0 (to act) already has two QBs and
only a QB remains available. -/
def sOverMax : DraftState :=
  { draftPicks := []
    availablePlayers := [qbThree]
    teamRosters := rosterTwoQB :: List.replicate 11 createEmptyRoster
    draftPhase := DraftPhase.drafting }

/-- C1 counterexample: with a roster already at the QB maximum of two and only
QBs left in the pool, the heuristic's fallback proposes a third QB anyway, and
makePick applies it without any legality check, pushing team 0's QB bucket to
three players, above the configured maximum. -/
theorem getCPUPick_overMax_counterexample :
    getCPUPick [qbThree] rosterTwoQB 3 randZero = some qbThree
    ∧ ¬ (countRosterPositions rosterTwoQB qbThree.position
          < (ROSTER_TARGETS qbThree.position).max)
    ∧ countRosterPositions
        ((makePick qbThree sOverMax).teamRosters.getD 0 createEmptyRoster) Position.QB = 3
    ∧ (ROSTER_TARGETS Position.QB).max < 3 := by
  refine ⟨?_, by decide, by decide, by decide⟩
  simp [getCPUPick, cpuCandidates, pickTop, countRosterPositions, TeamRoster.bucket,
    rosterTwoQB, qbThree, ROSTER_TARGETS, ROSTER_SIZE, List.filter, List.enum, List.enumFrom,
    List.insertionSort, cpuScore, randZero]

/-- A lone RB for the amended C1 witness. -/
def rbSolo : DraftPlayer := ⟨"RB-S", "S", Position.RB, 0, 0, 1⟩

/-- Witness for the amended C1 statement: on an empty roster the heuristic
proposes rbSolo, whose RB count 0 is below the maximum 6. -/
theorem getCPUPick_no_overMax_witness :
    countRosterPositions createEmptyRoster rbSolo.position
      < (ROSTER_TARGETS rbSolo.position).max :=
  getCPUPick_no_overMax [rbSolo] createEmptyRoster 1 randZero rbSolo
    ⟨rbSolo, by decide, by decide⟩
    (by simp [getCPUPick, cpuCandidates, pickTop, countRosterPositions, TeamRoster.bucket,
      createEmptyRoster, rbSolo, ROSTER_TARGETS, ROSTER_SIZE, List.filter, List.enum,
      List.enumFrom, List.insertionSort, cpuScore, randZero])

end OpponentHeuristicExamples
